import Mathlib

/-!
Shallow embedding of the typing-speed trainer (src/UI.py, src/main.py).

The program is a tkinter app with two widgets:
* `SentenceDisplay` holds a list of sentences and picks one at random
  (`get_random_sentence` uses `random.choice`).
* `TypingArea` owns the typing-session state: `timer_running`,
  `time_elapsed`, `timer_id`, the entry content, and three labels
  (accuracy, timer, WPM).

The embedding models the session state as `TAState`.  tkinter's `after`
scheduler is modelled by the `pending` list of `(id, delayMs)` pairs
together with the fresh-id counter `next_id`; `after_cancel` removes the
entry with the given id, and delivering a scheduled callback is
`fire_tick`.  Label texts are modelled by the numeric values they render
(`accuracy`, `wpm`, `time_elapsed`).  Python floats are modelled by `Rat`.
-/

attribute [local semireducible] Rat.mul Rat.inv Rat.add Rat.sub

/-- Length of a Python string (number of characters), `len(s)`. -/
def pyLen (s : String) : Nat := s.toList.length

/-- Indexing a Python string, `s[i]` (used only under an `i < len(s)` guard). -/
def pyGet (s : String) (i : Nat) : Char := s.toList.getD i default

/-- Python `str.isspace` characters relevant to `str.split()` (ASCII range). -/
def pyIsSpace (c : Char) : Bool :=
  c = ' ' || c = '\t' || c = '\n' || c = '\r' || c = '\x0b' || c = '\x0c'

/-- Helper for `countWords`: counts maximal runs of non-whitespace characters,
the semantics of Python `str.split()` with no argument.  The flag records
whether we are currently inside a token. -/
def pySplitCountAux : List Char → Bool → Nat
  | [], _ => 0
  | c :: rest, inTok =>
    if pyIsSpace c then pySplitCountAux rest false
    else if inTok then pySplitCountAux rest true
    else 1 + pySplitCountAux rest true

/-- Model of `len(input_text.split())` in `calculate_wpm` (UI.py line 176):
the number of whitespace-delimited tokens. -/
def countWords (s : String) : Nat := pySplitCountAux s.toList false

/-- The observable state of a `TypingArea` session (UI.py lines 59-94).
`pending` holds the ids of `after` callbacks that are scheduled but have
not yet fired and not been cancelled, with their delay in milliseconds. -/
structure TAState where
  sentence : String
  input : String
  timer_running : Bool
  time_elapsed : Nat
  timer_id : Option Nat
  pending : List (Nat × Nat)
  next_id : Nat
  accuracy : Rat
  wpm : Rat
  deriving DecidableEq

/-- State of a freshly constructed `TypingArea` bound to sentence `sen`
(UI.py lines 59-94: `timer_running = False`, `time_elapsed = 0`,
`timer_id = None`, empty entry, labels `Accuracy: 100%`, `Time: 0s`,
`WPM: 0.00`). -/
def initState (sen : String) : TAState :=
  { sentence := sen
    input := ""
    timer_running := false
    time_elapsed := 0
    timer_id := none
    pending := []
    next_id := 0
    accuracy := 100
    wpm := 0 }

/-- The WPM value written by `calculate_wpm` (UI.py lines 167-180):
`words / (time_elapsed / 60)` when `time_elapsed > 0`, else `0.00`. -/
def wpmValue (input_text : String) (elapsed : Nat) : Rat :=
  if 0 < elapsed then (countWords input_text : Rat) / ((elapsed : Rat) / 60) else 0

/-- Model of `calculate_wpm` (UI.py lines 167-180): updates the WPM label. -/
def calculate_wpm (s : TAState) (input_text : String) : TAState :=
  { s with wpm := wpmValue input_text s.time_elapsed }

/-- Model of `update_timer` (UI.py lines 134-148): if the timer is running,
increment `time_elapsed`, recompute WPM from the current entry content, and
schedule the next update with `self.after(1000, self.update_timer)`,
remembering its id in `timer_id`. -/
def update_timer (s : TAState) : TAState :=
  if s.timer_running = true then
    let s1 := { s with time_elapsed := s.time_elapsed + 1 }
    let s2 := calculate_wpm s1 s1.input
    { s2 with
      timer_id := some s2.next_id
      pending := s2.pending ++ [(s2.next_id, 1000)]
      next_id := s2.next_id + 1 }
  else s

/-- Model of `start_timer` (UI.py lines 123-132): only if the timer is not
already running, set the flag and call `update_timer` synchronously. -/
def start_timer (s : TAState) : TAState :=
  if s.timer_running = false then update_timer { s with timer_running := true } else s

/-- Model of `stop_timer` (UI.py lines 150-157): clear the running flag if
set; then, if a `timer_id` was recorded, `after_cancel` it. -/
def stop_timer (s : TAState) : TAState :=
  let s1 := if s.timer_running = true then { s with timer_running := false } else s
  match s1.timer_id with
  | some j => { s1 with pending := s1.pending.eraseP (fun e => e.1 == j) }
  | none => s1

/-- Model of `reset_timer` (UI.py lines 159-165): clear the running flag and
`time_elapsed`.  Note that it does not touch the scheduled callback. -/
def reset_timer (s : TAState) : TAState :=
  { s with timer_running := false, time_elapsed := 0 }

/-- Delivery of the scheduled `after` callback with id `j` by the tkinter
event loop: the callback leaves the queue and `update_timer` runs. -/
def fire_tick (s : TAState) (j : Nat) : TAState :=
  if s.pending.any (fun e => e.1 == j) then
    update_timer { s with pending := s.pending.eraseP (fun e => e.1 == j) }
  else s

/-- The accuracy value written inside the loop of `check_accuracy`
(UI.py line 113): `(correct_chars / len(sentence)) * 100 if sentence else 0`. -/
def accScore (c : Nat) (sen : String) : Rat :=
  if sen = "" then 0 else ((c : Rat) / (pyLen sen : Rat)) * 100

/-- One update of `correct_chars` in the loop of `check_accuracy`
(UI.py lines 108-110): increment when `i < len(sentence) and char == sentence[i]`. -/
def step_count (sen : String) (c : Nat) (ic : Nat × Char) : Nat :=
  if ic.1 < pyLen sen ∧ pyGet sen ic.1 = ic.2 then c + 1 else c

/-- The tail of each loop iteration of `check_accuracy` (UI.py lines 116-118):
when the just-displayed accuracy equals 100, stop the timer and recompute WPM. -/
def check_write (input_text : String) (st : TAState) : TAState :=
  if st.accuracy = 100 then calculate_wpm (stop_timer st) input_text else st

/-- One full iteration of the `for i, char in enumerate(input_text)` loop in
`check_accuracy` (UI.py lines 108-118): update the match count, display the
accuracy, and run the completion check. -/
def check_step (sen input_text : String) (p : TAState × Nat) (ic : Nat × Char) :
    TAState × Nat :=
  (check_write input_text
    { p.1 with accuracy := accScore (step_count sen p.2 ic) sen },
   step_count sen p.2 ic)

/-- Model of `check_accuracy` (UI.py lines 96-121): fold the loop body over
the enumerated input characters, then recompute WPM once more. -/
def check_accuracy (s : TAState) : TAState :=
  let r := (s.input.toList.enum).foldl (check_step s.sentence s.input) (s, 0)
  calculate_wpm r.1 s.input

/-- An input-change event: the entry now holds `newText` and the bound
`<KeyRelease>` handler `check_accuracy` runs (UI.py line 79). -/
def on_input_change (s : TAState) (newText : String) : TAState :=
  check_accuracy { s with input := newText }

/-- Model of `restart_program` (UI.py lines 182-193): `reset_timer`, clear
the entry, display a new (randomly picked) sentence, reset the accuracy and
WPM labels, and `start_timer`.  The randomly picked sentence is passed as
the parameter `newSentence`. -/
def restart_program (s : TAState) (newSentence : String) : TAState :=
  let s1 := reset_timer s
  let s2 := { s1 with input := "" }
  let s3 := { s2 with sentence := newSentence }
  let s4 := { s3 with accuracy := 100, wpm := 0 }
  start_timer s4

/-- Total number of loop iterations of `check_accuracy` that increment
`correct_chars`, for input characters `l` whose first element has index `n`. -/
def matchCount (sen : String) : Nat → List Char → Nat
  | _, [] => 0
  | n, ch :: rest =>
    (if n < pyLen sen ∧ pyGet sen n = ch then 1 else 0) + matchCount sen (n + 1) rest

/-- Canonical scheduler shape of a session whose last `after` call returned
id `j`: `timer_id` records `j` and the queue holds at most that callback. -/
def runInv (j : Nat) (st : TAState) : Prop :=
  st.timer_id = some j ∧ (st.pending = [(j, 1000)] ∨ st.pending = [])

/-- Python division on floats, made explicit: division by zero raises
(`none`), otherwise the quotient is returned. -/
def pyDivQ (a b : Rat) : Option Rat := if b = 0 then none else some (a / b)

/-- The accuracy expression of UI.py line 113 with the raising division made
explicit: `(correct_chars / len(sentence)) * 100 if sentence else 0`.  The
conditional guards the division, so the division is evaluated only when
`sentence` is non-empty. -/
def accuracyExprRaw (c : Nat) (sen : String) : Option Rat :=
  if sen = "" then some 0
  else (pyDivQ (c : Rat) (pyLen sen : Rat)).map (fun q => q * 100)

/-- Failure modes of the sentence picker: what `random.choice` actually
raises on an empty sequence, and the `EmptyCorpus` error the specification
names. -/
inductive PyErr where
  | indexError
  | emptyCorpus
  deriving DecidableEq

/-- Model of `random.choice(seq)`: the random oracle supplies an index `i`
(drawn by `_randbelow(len(seq))`, hence `i < len(seq)` whenever the sequence
is non-empty, and `0` otherwise); `seq[i]` raises `IndexError` when out of
range, which is the empty-sequence case. -/
def random_choice (l : List String) (i : Nat) : Except PyErr String :=
  if h : i < l.length then Except.ok (l.get ⟨i, h⟩) else Except.error PyErr.indexError

/-- Model of `SentenceDisplay.get_random_sentence` (UI.py lines 26-33):
`random.choice(self.sentence_list)`. -/
def get_random_sentence (l : List String) (i : Nat) : Except PyErr String :=
  random_choice l i

/-! ### Field lemmas for the individual operations -/

@[simp] theorem calculate_wpm_sentence (s : TAState) (t : String) :
    (calculate_wpm s t).sentence = s.sentence := rfl

@[simp] theorem calculate_wpm_input (s : TAState) (t : String) :
    (calculate_wpm s t).input = s.input := rfl

@[simp] theorem calculate_wpm_timer_running (s : TAState) (t : String) :
    (calculate_wpm s t).timer_running = s.timer_running := rfl

@[simp] theorem calculate_wpm_time_elapsed (s : TAState) (t : String) :
    (calculate_wpm s t).time_elapsed = s.time_elapsed := rfl

@[simp] theorem calculate_wpm_timer_id (s : TAState) (t : String) :
    (calculate_wpm s t).timer_id = s.timer_id := rfl

@[simp] theorem calculate_wpm_pending (s : TAState) (t : String) :
    (calculate_wpm s t).pending = s.pending := rfl

@[simp] theorem calculate_wpm_next_id (s : TAState) (t : String) :
    (calculate_wpm s t).next_id = s.next_id := rfl

@[simp] theorem calculate_wpm_accuracy (s : TAState) (t : String) :
    (calculate_wpm s t).accuracy = s.accuracy := rfl

@[simp] theorem calculate_wpm_wpm (s : TAState) (t : String) :
    (calculate_wpm s t).wpm = wpmValue t s.time_elapsed := rfl

@[simp] theorem update_timer_timer_running (s : TAState) :
    (update_timer s).timer_running = s.timer_running := by
  unfold update_timer; split <;> rfl

@[simp] theorem update_timer_input (s : TAState) :
    (update_timer s).input = s.input := by
  unfold update_timer; split <;> rfl

@[simp] theorem update_timer_sentence (s : TAState) :
    (update_timer s).sentence = s.sentence := by
  unfold update_timer; split <;> rfl

@[simp] theorem update_timer_accuracy (s : TAState) :
    (update_timer s).accuracy = s.accuracy := by
  unfold update_timer; split <;> rfl

theorem update_timer_of_running (s : TAState) (h : s.timer_running = true) :
    (update_timer s).time_elapsed = s.time_elapsed + 1
      ∧ (update_timer s).pending = s.pending ++ [(s.next_id, 1000)]
      ∧ (update_timer s).timer_id = some s.next_id
      ∧ (update_timer s).next_id = s.next_id + 1
      ∧ (update_timer s).wpm = wpmValue s.input (s.time_elapsed + 1) := by
  unfold update_timer
  rw [if_pos h]
  exact ⟨rfl, rfl, rfl, rfl, rfl⟩

theorem update_timer_of_stopped (s : TAState) (h : s.timer_running = false) :
    update_timer s = s := by
  unfold update_timer
  rw [h]
  simp

@[simp] theorem stop_timer_timer_running (s : TAState) :
    (stop_timer s).timer_running = false := by
  unfold stop_timer
  cases hr : s.timer_running <;> cases hid : s.timer_id <;> simp [hr, hid]

@[simp] theorem stop_timer_sentence (s : TAState) :
    (stop_timer s).sentence = s.sentence := by
  unfold stop_timer
  cases hr : s.timer_running <;> cases hid : s.timer_id <;> simp [hr, hid]

@[simp] theorem stop_timer_input (s : TAState) :
    (stop_timer s).input = s.input := by
  unfold stop_timer
  cases hr : s.timer_running <;> cases hid : s.timer_id <;> simp [hr, hid]

@[simp] theorem stop_timer_time_elapsed (s : TAState) :
    (stop_timer s).time_elapsed = s.time_elapsed := by
  unfold stop_timer
  cases hr : s.timer_running <;> cases hid : s.timer_id <;> simp [hr, hid]

@[simp] theorem stop_timer_timer_id (s : TAState) :
    (stop_timer s).timer_id = s.timer_id := by
  unfold stop_timer
  cases hr : s.timer_running <;> cases hid : s.timer_id <;> simp [hr, hid]

@[simp] theorem stop_timer_next_id (s : TAState) :
    (stop_timer s).next_id = s.next_id := by
  unfold stop_timer
  cases hr : s.timer_running <;> cases hid : s.timer_id <;> simp [hr, hid]

@[simp] theorem stop_timer_accuracy (s : TAState) :
    (stop_timer s).accuracy = s.accuracy := by
  unfold stop_timer
  cases hr : s.timer_running <;> cases hid : s.timer_id <;> simp [hr, hid]

theorem stop_timer_pending_of_some (s : TAState) (j : Nat) (h : s.timer_id = some j) :
    (stop_timer s).pending = s.pending.eraseP (fun e => e.1 == j) := by
  unfold stop_timer
  cases hr : s.timer_running <;> simp [hr, h]

/-! ### Lemmas about the loop body of `check_accuracy` -/

@[simp] theorem check_write_accuracy (t : String) (st : TAState) :
    (check_write t st).accuracy = st.accuracy := by
  unfold check_write; split <;> simp

theorem check_write_frame (t : String) (st : TAState) :
    (check_write t st).time_elapsed = st.time_elapsed
      ∧ (check_write t st).input = st.input
      ∧ (check_write t st).sentence = st.sentence
      ∧ (check_write t st).timer_id = st.timer_id
      ∧ (check_write t st).next_id = st.next_id := by
  unfold check_write; split <;> simp

theorem check_write_running_of_100 (t : String) (st : TAState)
    (h : st.accuracy = 100) : (check_write t st).timer_running = false := by
  unfold check_write
  rw [if_pos h]
  simp

theorem check_write_pending_of_100 (t : String) (st : TAState) (j : Nat)
    (h : st.accuracy = 100) (hinv : runInv j st) : (check_write t st).pending = [] := by
  obtain ⟨h1, h2⟩ := hinv
  unfold check_write
  rw [if_pos h]
  rw [calculate_wpm_pending, stop_timer_pending_of_some _ j h1]
  rcases h2 with h2 | h2 <;> simp [h2, List.eraseP_cons]

theorem check_write_runInv (t : String) (st : TAState) (j : Nat)
    (hinv : runInv j st) : runInv j (check_write t st) := by
  unfold check_write
  split
  · rename_i h
    refine ⟨?_, Or.inr ?_⟩
    · rw [calculate_wpm_timer_id, stop_timer_timer_id]
      exact hinv.1
    · exact check_write_pending_of_100 t st j h hinv ▸ by
        unfold check_write
        rw [if_pos h]
  · exact hinv

theorem check_step_snd (sen t : String) (p : TAState × Nat) (ic : Nat × Char) :
    (check_step sen t p ic).2
      = p.2 + (if ic.1 < pyLen sen ∧ pyGet sen ic.1 = ic.2 then 1 else 0) := by
  unfold check_step step_count
  split <;> simp

theorem check_step_fst_accuracy (sen t : String) (p : TAState × Nat) (ic : Nat × Char) :
    (check_step sen t p ic).1.accuracy = accScore (check_step sen t p ic).2 sen := by
  unfold check_step
  simp

theorem check_step_frame (sen t : String) (p : TAState × Nat) (ic : Nat × Char) :
    (check_step sen t p ic).1.time_elapsed = p.1.time_elapsed
      ∧ (check_step sen t p ic).1.input = p.1.input
      ∧ (check_step sen t p ic).1.sentence = p.1.sentence
      ∧ (check_step sen t p ic).1.timer_id = p.1.timer_id
      ∧ (check_step sen t p ic).1.next_id = p.1.next_id := by
  unfold check_step
  exact check_write_frame t _

theorem check_step_runInv (sen t : String) (j : Nat) (p : TAState × Nat)
    (ic : Nat × Char) (hinv : runInv j p.1) : runInv j (check_step sen t p ic).1 := by
  unfold check_step
  exact check_write_runInv t _ j hinv

theorem check_step_stop_of_acc (sen t : String) (p : TAState × Nat) (ic : Nat × Char)
    (h : (check_step sen t p ic).1.accuracy = 100) :
    (check_step sen t p ic).1.timer_running = false := by
  have ha : ({ p.1 with accuracy := accScore (step_count sen p.2 ic) sen }
      : TAState).accuracy = 100 := by
    have := check_write_accuracy t
      ({ p.1 with accuracy := accScore (step_count sen p.2 ic) sen })
    exact this.symm.trans h
  exact check_write_running_of_100 t _ ha

theorem check_step_pending_of_acc (sen t : String) (j : Nat) (p : TAState × Nat)
    (ic : Nat × Char) (hinv : runInv j p.1)
    (h : (check_step sen t p ic).1.accuracy = 100) :
    (check_step sen t p ic).1.pending = [] := by
  have ha : ({ p.1 with accuracy := accScore (step_count sen p.2 ic) sen }
      : TAState).accuracy = 100 := by
    have := check_write_accuracy t
      ({ p.1 with accuracy := accScore (step_count sen p.2 ic) sen })
    exact this.symm.trans h
  exact check_write_pending_of_100 t _ j ha hinv

/-! ### Lemmas about the whole loop of `check_accuracy` -/

theorem enumFrom_cons_eq {A : Type} (n : Nat) (a : A) (l : List A) :
    List.enumFrom n (a :: l) = (n, a) :: List.enumFrom (n + 1) l := rfl

theorem enum_eq_enumFrom_zero {A : Type} (l : List A) :
    l.enum = List.enumFrom 0 l := rfl

theorem foldl_check_step_frame (sen t : String) :
    ∀ (el : List (Nat × Char)) (p : TAState × Nat),
      (el.foldl (check_step sen t) p).1.time_elapsed = p.1.time_elapsed
        ∧ (el.foldl (check_step sen t) p).1.input = p.1.input
        ∧ (el.foldl (check_step sen t) p).1.sentence = p.1.sentence
        ∧ (el.foldl (check_step sen t) p).1.timer_id = p.1.timer_id
        ∧ (el.foldl (check_step sen t) p).1.next_id = p.1.next_id := by
  intro el
  induction el with
  | nil => intro p; exact ⟨rfl, rfl, rfl, rfl, rfl⟩
  | cons hd tl ih =>
    intro p
    simp only [List.foldl_cons]
    have h1 := check_step_frame sen t p hd
    have h2 := ih (check_step sen t p hd)
    exact ⟨h2.1.trans h1.1, h2.2.1.trans h1.2.1, h2.2.2.1.trans h1.2.2.1,
      h2.2.2.2.1.trans h1.2.2.2.1, h2.2.2.2.2.trans h1.2.2.2.2⟩

theorem foldl_check_step_runInv (sen t : String) (j : Nat) :
    ∀ (el : List (Nat × Char)) (p : TAState × Nat),
      runInv j p.1 → runInv j (el.foldl (check_step sen t) p).1 := by
  intro el
  induction el with
  | nil => intro p h; exact h
  | cons hd tl ih =>
    intro p h
    simp only [List.foldl_cons]
    exact ih (check_step sen t p hd) (check_step_runInv sen t j p hd h)

theorem foldl_check_step_stopped (sen t : String) :
    ∀ (el : List (Nat × Char)) (p : TAState × Nat), el ≠ [] →
      (el.foldl (check_step sen t) p).1.accuracy = 100 →
      (el.foldl (check_step sen t) p).1.timer_running = false := by
  intro el
  induction el with
  | nil => intro p h; exact absurd rfl h
  | cons hd tl ih =>
    intro p _ hacc
    cases tl with
    | nil =>
      simp only [List.foldl_cons, List.foldl_nil] at hacc ⊢
      exact check_step_stop_of_acc sen t p hd hacc
    | cons hd2 tl2 =>
      simp only [List.foldl_cons] at hacc ⊢
      exact ih (check_step sen t p hd) (by simp) hacc

theorem foldl_check_step_pending (sen t : String) (j : Nat) :
    ∀ (el : List (Nat × Char)) (p : TAState × Nat), runInv j p.1 → el ≠ [] →
      (el.foldl (check_step sen t) p).1.accuracy = 100 →
      (el.foldl (check_step sen t) p).1.pending = [] := by
  intro el
  induction el with
  | nil => intro p _ h; exact absurd rfl h
  | cons hd tl ih =>
    intro p hinv _ hacc
    cases tl with
    | nil =>
      simp only [List.foldl_cons, List.foldl_nil] at hacc ⊢
      exact check_step_pending_of_acc sen t j p hd hinv hacc
    | cons hd2 tl2 =>
      simp only [List.foldl_cons] at hacc ⊢
      exact ih (check_step sen t p hd) (check_step_runInv sen t j p hd hinv) (by simp) hacc

theorem enumFrom_nil_eq {A : Type} (n : Nat) : List.enumFrom n ([] : List A) = [] := rfl

theorem matchCount_nil (sen : String) (n : Nat) : matchCount sen n [] = 0 := rfl

theorem matchCount_cons (sen : String) (n : Nat) (ch : Char) (rest : List Char) :
    matchCount sen n (ch :: rest)
      = (if n < pyLen sen ∧ pyGet sen n = ch then 1 else 0) + matchCount sen (n + 1) rest :=
  rfl

theorem foldl_check_step_accuracy (sen t : String) :
    ∀ (l : List Char) (n : Nat) (st : TAState) (c : Nat), l ≠ [] →
      ((List.enumFrom n l).foldl (check_step sen t) (st, c)).1.accuracy
        = accScore (c + matchCount sen n l) sen := by
  intro l
  induction l with
  | nil => intro n st c h; exact absurd rfl h
  | cons ch rest ih =>
    intro n st c _
    rw [enumFrom_cons_eq]
    cases rest with
    | nil =>
      simp only [List.foldl_cons, enumFrom_nil_eq, List.foldl_nil]
      rw [check_step_fst_accuracy, check_step_snd]
      simp [matchCount_cons, matchCount_nil]
    | cons ch2 rest2 =>
      simp only [List.foldl_cons]
      have hstep : check_step sen t (st, c) (n, ch)
          = ((check_step sen t (st, c) (n, ch)).1, (check_step sen t (st, c) (n, ch)).2) := rfl
      rw [hstep]
      rw [ih (n + 1) (check_step sen t (st, c) (n, ch)).1 (check_step sen t (st, c) (n, ch)).2
        (by simp)]
      rw [check_step_snd]
      simp [matchCount_cons, Nat.add_assoc]

/-! ### String, `matchCount` and `accScore` facts -/

theorem toList_eq_nil_iff (s : String) : s.toList = [] ↔ s = "" := by
  constructor
  · intro h
    cases s with
    | mk d =>
      simp [String.toList] at h
      subst h
      rfl
  · intro h
    subst h
    rfl

theorem pyLen_pos_of_ne (s : String) (h : s ≠ "") : 0 < pyLen s := by
  unfold pyLen
  rw [List.length_pos]
  exact fun hc => h ((toList_eq_nil_iff s).mp hc)

theorem enumFrom_ne_nil {A : Type} (n : Nat) (l : List A) (h : l ≠ []) :
    List.enumFrom n l ≠ [] := by
  cases l with
  | nil => exact absurd rfl h
  | cons a rest => rw [enumFrom_cons_eq]; exact List.cons_ne_nil _ _

theorem matchCount_le_length (sen : String) :
    ∀ (l : List Char) (n : Nat), matchCount sen n l ≤ l.length := by
  intro l
  induction l with
  | nil => intro n; rw [matchCount_nil]; exact Nat.le_refl 0
  | cons ch rest ih =>
    intro n
    rw [matchCount_cons]
    have := ih (n + 1)
    by_cases h : n < pyLen sen ∧ pyGet sen n = ch <;> simp [h] <;> omega

theorem matchCount_of_pattern (sen : String) :
    ∀ (l : List Char) (n k : Nat),
      (∀ j, j < l.length →
        ((n + j < pyLen sen ∧ pyGet sen (n + j) = l.getD j default) ↔ n + j < k)) →
      matchCount sen n l = min l.length (k - n) := by
  intro l
  induction l with
  | nil => intro n k _; simp [matchCount_nil]
  | cons ch rest ih =>
    intro n k h
    rw [matchCount_cons]
    have h0 := h 0 (by simp)
    simp only [Nat.add_zero, List.getD_cons_zero] at h0
    have hrest := ih (n + 1) k ?_
    · rw [hrest]
      by_cases hk : n < k
      · rw [if_pos (h0.mpr hk)]
        simp only [List.length_cons]
        omega
      · have hn : ¬ (n < pyLen sen ∧ pyGet sen n = ch) := fun hc => hk (h0.mp hc)
        rw [if_neg hn]
        simp only [List.length_cons]
        omega
    · intro j hj
      have hsucc := h (j + 1) (by simpa using Nat.succ_lt_succ hj)
      simp only [List.getD_cons_succ] at hsucc
      rw [show n + 1 + j = n + (j + 1) by omega]
      exact hsucc

theorem matchCount_all (sen : String) :
    matchCount sen 0 sen.toList = pyLen sen := by
  have h := matchCount_of_pattern sen sen.toList 0 (pyLen sen) ?_
  · rw [h]
    unfold pyLen
    omega
  · intro j hj
    unfold pyLen
    constructor
    · intro _
      simpa using hj
    · intro _
      refine ⟨by simpa using hj, ?_⟩
      simp [pyGet]

theorem accScore_empty (c : Nat) : accScore c "" = 0 := by
  unfold accScore
  simp

theorem accScore_eq_hundred_iff (c : Nat) (sen : String) (h : sen ≠ "") :
    accScore c sen = 100 ↔ c = pyLen sen := by
  unfold accScore
  rw [if_neg h]
  have hL : 0 < pyLen sen := pyLen_pos_of_ne sen h
  have hL0 : ((pyLen sen : Nat) : Rat) ≠ 0 := by
    exact_mod_cast Nat.pos_iff_ne_zero.mp hL
  constructor
  · intro hc
    have h2 : (c : Rat) = ((pyLen sen : Nat) : Rat) := by
      field_simp at hc
      linarith
    exact_mod_cast h2
  · intro hc
    subst hc
    field_simp

theorem accuracyExprRaw_eq (c : Nat) (sen : String) :
    accuracyExprRaw c sen = some (accScore c sen) := by
  unfold accuracyExprRaw accScore pyDivQ
  by_cases h : sen = ""
  · simp [h]
  · have hL : 0 < pyLen sen := pyLen_pos_of_ne sen h
    have hL0 : ((pyLen sen : Nat) : Rat) ≠ 0 := by
      exact_mod_cast Nat.pos_iff_ne_zero.mp hL
    simp [h, hL0]

/-! ### Behaviour of delivered ticks on a stopped session -/

theorem fire_tick_of_stopped (s : TAState) (j : Nat) (h : s.timer_running = false) :
    (fire_tick s j).time_elapsed = s.time_elapsed
      ∧ (fire_tick s j).timer_running = false := by
  unfold fire_tick
  split
  · have hr : ({ s with pending := s.pending.eraseP (fun e => e.1 == j) }
        : TAState).timer_running = false := h
    rw [update_timer_of_stopped _ hr]
    exact ⟨rfl, hr⟩
  · exact ⟨rfl, h⟩

theorem fire_ticks_frozen (js : List Nat) :
    ∀ s : TAState, s.timer_running = false →
      (js.foldl fire_tick s).time_elapsed = s.time_elapsed
        ∧ (js.foldl fire_tick s).timer_running = false := by
  induction js with
  | nil => intro s h; exact ⟨rfl, h⟩
  | cons j rest ih =>
    intro s h
    simp only [List.foldl_cons]
    have h1 := fire_tick_of_stopped s j h
    have h2 := ih (fire_tick s j) h1.2
    exact ⟨h2.1.trans h1.1, h2.2⟩

/-! ### Top-level characterisation of `check_accuracy` -/

theorem check_accuracy_as_fold (s : TAState) :
    check_accuracy s
      = calculate_wpm
          ((s.input.toList.enum).foldl (check_step s.sentence s.input) (s, 0)).1
          s.input := rfl

theorem check_accuracy_time_elapsed (s : TAState) :
    (check_accuracy s).time_elapsed = s.time_elapsed := by
  rw [check_accuracy_as_fold, calculate_wpm_time_elapsed]
  exact (foldl_check_step_frame s.sentence s.input s.input.toList.enum (s, 0)).1

theorem check_accuracy_wpm (s : TAState) :
    (check_accuracy s).wpm = wpmValue s.input s.time_elapsed := by
  rw [check_accuracy_as_fold, calculate_wpm_wpm]
  rw [(foldl_check_step_frame s.sentence s.input s.input.toList.enum (s, 0)).1]

theorem check_accuracy_acc_of_ne (s : TAState) (h : s.input ≠ "") :
    (check_accuracy s).accuracy
      = accScore (matchCount s.sentence 0 s.input.toList) s.sentence := by
  rw [check_accuracy_as_fold, calculate_wpm_accuracy, enum_eq_enumFrom_zero]
  have hl : s.input.toList ≠ [] := fun hc => h ((toList_eq_nil_iff _).mp hc)
  have := foldl_check_step_accuracy s.sentence s.input s.input.toList 0 s 0 hl
  simpa using this

theorem check_accuracy_acc_of_empty (s : TAState) (h : s.input = "") :
    (check_accuracy s).accuracy = s.accuracy := by
  rw [check_accuracy_as_fold, calculate_wpm_accuracy]
  rw [show s.input.toList = [] from (toList_eq_nil_iff _).mpr h ▸ rfl]
  rfl

theorem check_accuracy_stopped (s : TAState) (h : s.input ≠ "")
    (hacc : (check_accuracy s).accuracy = 100) :
    (check_accuracy s).timer_running = false := by
  rw [check_accuracy_as_fold, calculate_wpm_timer_running]
  rw [check_accuracy_as_fold, calculate_wpm_accuracy] at hacc
  have hl : s.input.toList.enum ≠ [] := by
    rw [enum_eq_enumFrom_zero]
    exact enumFrom_ne_nil 0 _ (fun hc => h ((toList_eq_nil_iff _).mp hc))
  exact foldl_check_step_stopped s.sentence s.input s.input.toList.enum (s, 0) hl hacc

theorem check_accuracy_no_pending (s : TAState) (j : Nat) (hinv : runInv j s)
    (h : s.input ≠ "") (hacc : (check_accuracy s).accuracy = 100) :
    (check_accuracy s).pending = [] := by
  rw [check_accuracy_as_fold, calculate_wpm_pending]
  rw [check_accuracy_as_fold, calculate_wpm_accuracy] at hacc
  have hl : s.input.toList.enum ≠ [] := by
    rw [enum_eq_enumFrom_zero]
    exact enumFrom_ne_nil 0 _ (fun hc => h ((toList_eq_nil_iff _).mp hc))
  exact foldl_check_step_pending s.sentence s.input j s.input.toList.enum (s, 0) hinv hl hacc

/-! ### `start_timer` helper lemmas -/

theorem start_timer_running (s : TAState) : (start_timer s).timer_running = true := by
  unfold start_timer
  split
  · rw [update_timer_timer_running]
  · rename_i h
    simpa using h

theorem start_timer_idem (s : TAState) : start_timer (start_timer s) = start_timer s := by
  have h := start_timer_running s
  show (if (start_timer s).timer_running = false then
      update_timer { start_timer s with timer_running := true } else start_timer s)
    = start_timer s
  rw [h]
  simp

theorem start_timer_init_pending (sen : String) :
    (start_timer (initState sen)).pending = [(0, 1000)] := by
  unfold start_timer
  rw [if_pos (show (initState sen).timer_running = false from rfl)]
  have h := update_timer_of_running { initState sen with timer_running := true } rfl
  rw [h.2.1]
  rfl

/-! ### The claims -/

/-- C3: for every input text and every `elapsedSeconds`, the WPM written by
`calculate_wpm` equals (count of whitespace-delimited tokens in the input)
divided by `elapsedSeconds/60` when `elapsedSeconds > 0`, and equals `0`
when `elapsedSeconds = 0` (the division is guarded, so nothing raises); in
particular `elapsedSeconds = 60` with input `"one two three"` yields WPM 3. -/
theorem C3_wpm_formula :
    (∀ (s : TAState) (t : String),
        (calculate_wpm s t).wpm
          = if 0 < s.time_elapsed
            then (countWords t : Rat) / ((s.time_elapsed : Rat) / 60) else 0)
      ∧ (∀ (s : TAState) (t : String), s.time_elapsed = 0 → (calculate_wpm s t).wpm = 0)
      ∧ (∀ s : TAState, s.time_elapsed = 60 →
          (calculate_wpm s "one two three").wpm = 3) := by
  refine ⟨?_, ?_, ?_⟩
  · intro s t
    rw [calculate_wpm_wpm]
    rfl
  · intro s t h
    rw [calculate_wpm_wpm]
    unfold wpmValue
    rw [h]
    simp
  · intro s h
    rw [calculate_wpm_wpm]
    unfold wpmValue
    rw [h]
    have hw : countWords "one two three" = 3 := by decide
    rw [if_pos (by norm_num), hw]
    norm_num

/-- C3 witness: a session with 60 elapsed seconds and the input
`"one two three"` gets WPM exactly 3. -/
theorem C3_wpm_witness :
    (calculate_wpm { initState "abc" with time_elapsed := 60 } "one two three").wpm = 3 :=
  C3_wpm_formula.2.2 { initState "abc" with time_elapsed := 60 } rfl

/-- C7: calling `start_timer` while already running is a no-op; two
consecutive calls from a fresh session leave exactly one scheduled tick
(no double-speed timer). -/
theorem C7_start_idempotent :
    (∀ s : TAState, start_timer (start_timer s) = start_timer s)
      ∧ (∀ sen : String,
          (start_timer (start_timer (initState sen))).pending = [(0, 1000)]) :=
  ⟨fun s => start_timer_idem s,
   fun sen => by rw [start_timer_idem]; exact start_timer_init_pending sen⟩

/-- C10: starting the timer from the Idle state fires the first tick
synchronously: immediately after `start_timer` returns, `time_elapsed` is 1
(not 0), the running flag is set, and the next tick is scheduled 1000 ms
later. -/
theorem C10_first_tick (s : TAState) (h1 : s.timer_running = false)
    (h2 : s.time_elapsed = 0) :
    (start_timer s).time_elapsed = 1
      ∧ (start_timer s).timer_running = true
      ∧ (start_timer s).pending = s.pending ++ [(s.next_id, 1000)]
      ∧ (start_timer s).timer_id = some s.next_id := by
  unfold start_timer
  rw [if_pos h1]
  have h := update_timer_of_running { s with timer_running := true } rfl
  refine ⟨?_, ?_, ?_, ?_⟩
  · rw [h.1]
    show s.time_elapsed + 1 = 1
    omega
  · rw [update_timer_timer_running]
  · rw [h.2.1]
  · rw [h.2.2.1]

/-- C10 witness: starting a fresh session yields elapsed 1 and one tick
scheduled 1000 ms later. -/
theorem C10_first_tick_witness :
    (start_timer (initState "a")).time_elapsed = 1
      ∧ (start_timer (initState "a")).timer_running = true
      ∧ (start_timer (initState "a")).pending
          = (initState "a").pending ++ [((initState "a").next_id, 1000)]
      ∧ (start_timer (initState "a")).timer_id = some (initState "a").next_id :=
  C10_first_tick (initState "a") rfl rfl

/-- C6 counterexample: from a Running session whose entry holds `"x"`,
`reset_timer` followed by `start_timer` does not reproduce a freshly
constructed session's first start: the entry content differs (the claim
asserts the same observable input). -/
theorem C6_cex :
    (start_timer (reset_timer { start_timer (initState "a") with input := "x" })).input
      ≠ (start_timer (initState "a")).input := by decide

/-- C6 amended: `reset_timer` followed by `start_timer` agrees with a fresh
session's first `start_timer` on `time_elapsed` and the running flag, but it
leaves the entry content unchanged and does not cancel a previously pending
tick (the new tick is appended after any stale one). -/
theorem C6_reset_start_amended (s : TAState) (sen : String) :
    (start_timer (reset_timer s)).time_elapsed
        = (start_timer (initState sen)).time_elapsed
      ∧ (start_timer (reset_timer s)).timer_running
          = (start_timer (initState sen)).timer_running
      ∧ (start_timer (reset_timer s)).input = s.input
      ∧ (start_timer (reset_timer s)).pending = s.pending ++ [(s.next_id, 1000)] := by
  have h := update_timer_of_running { reset_timer s with timer_running := true } rfl
  have hi := update_timer_of_running { initState sen with timer_running := true } rfl
  unfold start_timer
  rw [if_pos (show (reset_timer s).timer_running = false from rfl)]
  rw [if_pos (show (initState sen).timer_running = false from rfl)]
  refine ⟨?_, ?_, ?_, ?_⟩
  · rw [h.1, hi.1]
    rfl
  · rw [update_timer_timer_running, update_timer_timer_running]
  · rw [update_timer_input]
    rfl
  · rw [h.2.1]
    rfl

/-- C4: with a Running session holding one pending tick, `reset_timer` does
not cancel the scheduled tick, and after `restart_program` the stale tick
fires and increments `time_elapsed` (so elapsed time advances twice per
second).  This exhibits the divergence from the claim that stop, reset and
restart cancel every pending scheduled tick. -/
theorem C4_stale_tick :
    (reset_timer (start_timer (initState "a"))).pending ≠ []
      ∧ (fire_tick (restart_program (start_timer (initState "a")) "b") 0).time_elapsed
          = (restart_program (start_timer (initState "a")) "b").time_elapsed + 1 := by
  exact ⟨by decide, by decide⟩

/-- C2: whenever an input-change event makes the displayed accuracy reach
exactly 100 (a non-empty input, which forces every target position to be
matched, so `len(input) >= len(target)`), a Running session with its one
scheduled tick transitions to stopped, the scheduled tick is cancelled,
`time_elapsed` is unchanged, and WPM is recomputed one final time from the
new input and the elapsed seconds at that moment. -/
theorem C2_completion (s : TAState) (newText : String) (j : Nat)
    (_h1 : s.timer_running = true) (h2 : s.timer_id = some j)
    (h3 : s.pending = [(j, 1000)]) (h4 : newText ≠ "")
    (h5 : (on_input_change s newText).accuracy = 100) :
    (on_input_change s newText).timer_running = false
      ∧ (on_input_change s newText).pending = []
      ∧ (on_input_change s newText).time_elapsed = s.time_elapsed
      ∧ (on_input_change s newText).wpm = wpmValue newText s.time_elapsed
      ∧ pyLen s.sentence ≤ pyLen newText := by
  have hinp : ({ s with input := newText } : TAState).input ≠ "" := h4
  have hstop := check_accuracy_stopped { s with input := newText } hinp h5
  have hinv : runInv j ({ s with input := newText } : TAState) := ⟨h2, Or.inl h3⟩
  have hpend := check_accuracy_no_pending { s with input := newText } j hinv hinp h5
  have helap := check_accuracy_time_elapsed ({ s with input := newText } : TAState)
  have hwpm := check_accuracy_wpm ({ s with input := newText } : TAState)
  have hsen : s.sentence ≠ "" := by
    intro hc
    have hacc2 := check_accuracy_acc_of_ne ({ s with input := newText } : TAState) hinp
    rw [show ({ s with input := newText } : TAState).sentence = s.sentence from rfl] at hacc2
    rw [show (on_input_change s newText) = check_accuracy { s with input := newText }
      from rfl] at h5
    rw [hacc2, hc, accScore_empty] at h5
    norm_num at h5
  have hacc2 := check_accuracy_acc_of_ne ({ s with input := newText } : TAState) hinp
  rw [show ({ s with input := newText } : TAState).sentence = s.sentence from rfl] at hacc2
  rw [show ({ s with input := newText } : TAState).input = newText from rfl] at hacc2
  rw [show (on_input_change s newText) = check_accuracy { s with input := newText }
    from rfl] at h5
  rw [hacc2] at h5
  have hcount : matchCount s.sentence 0 newText.toList = pyLen s.sentence :=
    (accScore_eq_hundred_iff _ _ hsen).mp h5
  have hle : matchCount s.sentence 0 newText.toList ≤ newText.toList.length :=
    matchCount_le_length s.sentence newText.toList 0
  refine ⟨hstop, hpend, helap, hwpm, ?_⟩
  unfold pyLen at hcount ⊢
  omega

/-- C2 witness: typing the whole one-character sentence of a running fresh
session stops it, cancels the tick, keeps elapsed at 1 and writes the final
WPM. -/
theorem C2_completion_witness :
    (on_input_change (start_timer (initState "a")) "a").timer_running = false
      ∧ (on_input_change (start_timer (initState "a")) "a").pending = []
      ∧ (on_input_change (start_timer (initState "a")) "a").time_elapsed
          = (start_timer (initState "a")).time_elapsed
      ∧ (on_input_change (start_timer (initState "a")) "a").wpm
          = wpmValue "a" (start_timer (initState "a")).time_elapsed
      ∧ pyLen (start_timer (initState "a")).sentence ≤ pyLen "a" :=
  C2_completion (start_timer (initState "a")) "a" 0 (by decide) (by decide) (by decide)
    (by decide) (by decide)

/-- C5 counterexample: with an empty target sentence the input `""` equals
the target, yet the session is not stopped and a subsequently delivered tick
still increments `time_elapsed` — the claim fails as stated for the empty
target. -/
theorem C5_cex :
    (fire_tick (on_input_change (start_timer (initState "")) "") 0).time_elapsed
      ≠ (on_input_change (start_timer (initState "")) "").time_elapsed := by decide

/-- C5 amended: for a non-empty target, once the input equals the target the
input-change event leaves the session stopped, and any sequence of
subsequently delivered ticks, even erroneously delivered ones, leaves
`time_elapsed` unchanged. -/
theorem C5_frozen_after_match (s : TAState) (js : List Nat) (h : s.sentence ≠ "") :
    (on_input_change s s.sentence).timer_running = false
      ∧ (js.foldl fire_tick (on_input_change s s.sentence)).time_elapsed
          = (on_input_change s s.sentence).time_elapsed := by
  have hinput : ({ s with input := s.sentence } : TAState).input ≠ "" := h
  have hacc : (check_accuracy { s with input := s.sentence }).accuracy = 100 := by
    rw [check_accuracy_acc_of_ne ({ s with input := s.sentence } : TAState) hinput]
    rw [show ({ s with input := s.sentence } : TAState).sentence = s.sentence from rfl]
    rw [show ({ s with input := s.sentence } : TAState).input = s.sentence from rfl]
    rw [matchCount_all]
    exact (accScore_eq_hundred_iff _ _ h).mpr rfl
  have hstop : (on_input_change s s.sentence).timer_running = false :=
    check_accuracy_stopped ({ s with input := s.sentence } : TAState) hinput hacc
  exact ⟨hstop, (fire_ticks_frozen js (on_input_change s s.sentence) hstop).1⟩

/-- C5 witness: after typing the full two-character sentence of a running
fresh session, delivering ticks 0 and 7 leaves the frozen elapsed time
unchanged. -/
theorem C5_frozen_witness :
    (on_input_change (start_timer (initState "ab"))
        (start_timer (initState "ab")).sentence).timer_running = false
      ∧ (([0, 7].foldl fire_tick
            (on_input_change (start_timer (initState "ab"))
              (start_timer (initState "ab")).sentence)).time_elapsed
          = (on_input_change (start_timer (initState "ab"))
              (start_timer (initState "ab")).sentence).time_elapsed) :=
  C5_frozen_after_match (start_timer (initState "ab")) [0, 7] (by decide)

/-- C1 counterexample: processing an input-change event with the empty input
against the one-character target `"a"` leaves the accuracy display at its
previous value 100 instead of setting it to `0/1*100 = 0`, because the
accuracy update sits inside the per-character loop, which does not run. -/
theorem C1_cex : (on_input_change (initState "a") "").accuracy ≠ 0 := by decide

/-- C1 amended: for a target of length `L > 0` and a non-empty input of
length `M ≤ L` whose first `k` characters match the target
position-by-position and whose remaining characters mismatch, the
input-change event sets accuracy to exactly `k/L*100`; for the empty input
(`M = 0`) no accuracy is written and the display keeps its previous value. -/
theorem C1_accuracy_amended (s : TAState) (tgt inp : String) (k : Nat)
    (hsen : s.sentence = tgt) (hL : 0 < pyLen tgt)
    (hM : pyLen inp ≤ pyLen tgt) (hk : k ≤ pyLen inp)
    (hpat : ∀ j, j < pyLen inp → (pyGet tgt j = pyGet inp j ↔ j < k)) :
    (inp ≠ "" → (on_input_change s inp).accuracy = (k : Rat) / (pyLen tgt : Rat) * 100)
      ∧ (inp = "" → (on_input_change s inp).accuracy = s.accuracy) := by
  constructor
  · intro hne
    have htgt : tgt ≠ "" := by
      intro hc
      subst hc
      exact absurd hL (by decide)
    have hinp : ({ s with input := inp } : TAState).input ≠ "" := hne
    have hacc := check_accuracy_acc_of_ne ({ s with input := inp } : TAState) hinp
    have hcount : matchCount tgt 0 inp.toList = min inp.toList.length (k - 0) := by
      apply matchCount_of_pattern
      intro j hj
      simp only [Nat.zero_add]
      have hj2 : j < pyLen inp := hj
      constructor
      · intro hc
        exact (hpat j hj2).mp hc.2
      · intro hjk
        refine ⟨?_, (hpat j hj2).mpr hjk⟩
        unfold pyLen at hj2 hM ⊢
        omega
    rw [show (on_input_change s inp) = check_accuracy { s with input := inp }
      from rfl, hacc]
    rw [show ({ s with input := inp } : TAState).sentence = s.sentence from rfl,
      show ({ s with input := inp } : TAState).input = inp from rfl, hsen, hcount]
    rw [show min inp.toList.length (k - 0) = k by
      unfold pyLen at hk
      omega]
    unfold accScore
    rw [if_neg htgt]
  · intro he
    have hie : ({ s with input := inp } : TAState).input = "" := he
    have h2 := check_accuracy_acc_of_empty ({ s with input := inp } : TAState) hie
    rw [show ({ s with input := inp } : TAState).accuracy = s.accuracy from rfl] at h2
    exact h2

/-- C1 witness: target `"ab"`, input `"a"`, `k = 1`: accuracy becomes
`1/2*100`. -/
theorem C1_accuracy_witness :
    (on_input_change (initState "ab") "a").accuracy
      = ((1 : Nat) : Rat) / ((pyLen "ab" : Nat) : Rat) * 100 :=
  (C1_accuracy_amended (initState "ab") "ab" "a" 1 rfl (by decide) (by decide) (by decide)
    (fun j hj => by
      have hj1 : j = 0 := by
        have hp : pyLen "a" = 1 := by decide
        omega
      subst hj1
      decide)).1 (by decide)

/-- C8 counterexample: with the empty target and the empty input, the
accuracy display keeps its previous value 100 instead of yielding 0,
because the guarded accuracy expression inside the loop is never evaluated. -/
theorem C8_cex : (on_input_change (initState "") "").accuracy ≠ 0 := by decide

/-- C8 amended: against the empty target, the guarded accuracy expression of
line 113 evaluates without dividing (the conditional avoids the division) and
yields 0, and every input-change event with a non-empty input displays
accuracy 0; with the empty input nothing is computed at all (and nothing can
raise), the display keeping its previous value. -/
theorem C8_empty_target_amended (s : TAState) (inp : String) (c : Nat)
    (hsen : s.sentence = "") :
    accuracyExprRaw c "" = some 0
      ∧ (inp ≠ "" → (on_input_change s inp).accuracy = 0) := by
  constructor
  · rw [accuracyExprRaw_eq, accScore_empty]
  · intro hne
    have hinp : ({ s with input := inp } : TAState).input ≠ "" := hne
    have hacc := check_accuracy_acc_of_ne ({ s with input := inp } : TAState) hinp
    rw [show (on_input_change s inp) = check_accuracy { s with input := inp } from rfl,
      hacc]
    rw [show ({ s with input := inp } : TAState).sentence = s.sentence from rfl, hsen,
      accScore_empty]

/-- C8 witness: the guarded expression yields `some 0` at `c = 5`, and the
input `"x"` against the empty target displays accuracy 0. -/
theorem C8_empty_target_witness :
    accuracyExprRaw 5 "" = some 0
      ∧ (on_input_change (initState "") "x").accuracy = 0 :=
  ⟨(C8_empty_target_amended (initState "") "x" 5 rfl).1,
   (C8_empty_target_amended (initState "") "x" 5 rfl).2 (by decide)⟩

/-- C9 counterexample: on the empty sentence list, `get_random_sentence`
(`random.choice`) fails with an unguarded `IndexError`, which is not the
dedicated `EmptyCorpus` error the claim requires. -/
theorem C9_cex :
    get_random_sentence ([] : List String) 0 = Except.error PyErr.indexError
      ∧ PyErr.indexError ≠ PyErr.emptyCorpus := by
  constructor
  · simp [get_random_sentence, random_choice]
  · decide

/-- C9 amended: for every index below the length of a (hence non-empty)
list, `get_random_sentence` returns the element at that index — so with the
index drawn uniformly by `random.choice` the selection is uniform over the
positions — and on the empty list every oracle index produces the unguarded
`IndexError` rather than a dedicated `EmptyCorpus` error. -/
theorem C9_choice_amended :
    (∀ (l : List String) (i : Nat) (h : i < l.length),
        get_random_sentence l i = Except.ok (l.get ⟨i, h⟩))
      ∧ (∀ i : Nat,
          get_random_sentence ([] : List String) i = Except.error PyErr.indexError) := by
  constructor
  · intro l i h
    unfold get_random_sentence random_choice
    rw [dif_pos h]
  · intro i
    unfold get_random_sentence random_choice
    rw [dif_neg (by simp)]

/-- C9 witness: index 1 into `["a", "b"]` yields `"b"`. -/
theorem C9_choice_witness : get_random_sentence ["a", "b"] 1 = Except.ok "b" :=
  C9_choice_amended.1 ["a", "b"] 1 (by decide)
